import Mathlib

/-!
Shallow embedding of `mad::DirectFile` (src/include/mad/DirectFile.h).

The class wraps a file descriptor opened with O_DIRECT when possible and
bridges arbitrary `(offset, length)` writes to page-aligned transfers:
an unaligned head and sub-page tail go through a write-back page cache
(`std::map<uint64_t, uint8_t*> cache`), aligned bulk chunks are staged in a
caller-supplied scratch buffer and written directly with `pwrite`, evicting
any cached pages they cover.  `flush()` drains the cache; `close()` flushes
and releases the descriptor.

Modelling choices:
  * bytes are plain `Nat` (only their values matter, never their width);
  * the underlying file ("device") is a byte store `Nat → Nat` plus a
    current size; `pwrite` beyond the end zero-fills the hole, matching
    POSIX semantics of writing past end-of-file;
  * the `std::map` is a key-sorted association list, so iteration order in
    `flush` and the `lower_bound`-based eviction loop match the source;
  * page buffers are functions `Nat → Nat` (only offsets `< page_size` are
    ever read);
  * `pwrite` during `flush` may fail (return a short count): a per-page-index
    oracle `fail : Nat → Bool` models the device; the C++ code throws on a
    short write, which the embedding renders as `ok = false` in the result.
    The bulk `pwrite` inside `write` is modelled on its success path, which
    is what every claim about `write` concerns;
  * the C++ `while` loop in `write` is fuel-indexed; fuel `length` is enough
    whenever `buffer_size > 0`, because each iteration then advances `total`
    by at least one byte;
  * `offset & align_mask` (with `align_mask = page_size - 1` and
    `page_size = 1 << log_page_size`) is written `offset % page_size`, and
    `count &= ~align_mask` is written `count - count % page_size`: for a
    power-of-two modulus these are the same functions on the values that
    occur (all far below 2^64, so 64-bit wraparound never fires).
-/

namespace DirectFile

/-- A device write event: `pwrite(fd, buf, len, off)` as seen by the file. -/
structure DevWrite where
  off : Nat
  len : Nat
deriving DecidableEq

/-- The underlying file: its byte contents and its current size.  Bytes at
positions `≥ size` have never been written (a `pread` does not return them). -/
structure Device where
  bytes : Nat → Nat
  size : Nat

/-- `pwrite(fd, src, count, off)` on the success path: the file now holds
`src [0, count)` at `[off, off + count)`, any hole between the old end of
file and `off` reads as zero, and the size grows to at least `off + count`. -/
def Device.pwrite (dev : Device) (src : Nat → Nat) (count off : Nat) : Device :=
  { bytes := fun a =>
      if off ≤ a ∧ a < off + count then src (a - off)
      else if dev.size ≤ a then 0 else dev.bytes a,
    size := max dev.size (off + count) }

/-- Reading one byte of the finished file, with the logical zero extension
past end-of-file (a region never written reads as zero). -/
def Device.readFile (dev : Device) (a : Nat) : Nat :=
  if a < dev.size then dev.bytes a else 0

/-- The page cache `std::map<uint64_t, uint8_t*>`: a key-sorted association
list from page index to page contents. -/
abbrev Cache := List (Nat × (Nat → Nat))

/-- `cache.find(index)` / `cache[index]` lookup. -/
def cacheLookup : Cache → Nat → Option (Nat → Nat)
  | [], _ => none
  | (k, p) :: rest, i => if k = i then some p else cacheLookup rest i

/-- `cache[index] = page`: insert or overwrite, keeping keys sorted. -/
def cacheInsert : Cache → Nat → (Nat → Nat) → Cache
  | [], i, p => [(i, p)]
  | (k, q) :: rest, i, p =>
    if i < k then (i, p) :: (k, q) :: rest
    else if i = k then (i, p) :: rest
    else (k, q) :: cacheInsert rest i p

/-- The eviction loop of `write`: starting from `cache.lower_bound(b)`, erase
entries while their key is `< e`.  On the sorted map this removes exactly the
keys in `[b, e)`. -/
def evictRange (c : Cache) (b e : Nat) : Cache :=
  c.filter fun kv => !(decide (b ≤ kv.1) && decide (kv.1 < e))

/-- The mutable state of a `DirectFile` object.  `fdOpen` is `fd >= 0`;
`page_size` is derived from `log_page_size` below, as in the constructor. -/
structure State where
  read_flag : Bool
  log_page_size : Nat
  buffer_size : Nat
  fdOpen : Bool
  cache : Cache
  dev : Device

/-- `page_size = 1 << log_page_size`. -/
def page_size (st : State) : Nat := 2 ^ st.log_page_size

/-- The contents a freshly allocated cache page receives in `get_page`:
if `read_flag` is set, `pread` up to `page_size` bytes at `index * page_size`
and `memset` the remainder (all of it when `ret <= 0`) to zero; otherwise
`memset` the whole page to zero. -/
def mkPage (st : State) (index : Nat) : Nat → Nat :=
  if st.read_flag then
    fun j =>
      if index * page_size st + j < st.dev.size then
        st.dev.bytes (index * page_size st + j)
      else 0
  else
    fun _ => 0

/-- `DirectFile::get_page(address)`: look the page up in the cache and, on a
miss, allocate and populate it (see `mkPage`) and insert it.  Returns the
updated state and the page. -/
def get_page (st : State) (address : Nat) : State × (Nat → Nat) :=
  let index := address >>> st.log_page_size
  match cacheLookup st.cache index with
  | some p => (st, p)
  | none =>
      let p := mkPage st index
      ({ st with cache := cacheInsert st.cache index p }, p)

/-- `memcpy(page + dst, src, count)` on a page buffer. -/
def storeBytes (p : Nat → Nat) (dst : Nat) (src : Nat → Nat) (count : Nat) :
    Nat → Nat :=
  fun j => if dst ≤ j ∧ j < dst + count then src (j - dst) else p j

/-- `memcpy(get_page(address) + dst, src, count)`: the cached-page update the
head and tail branches of `write` perform (the page is mutated in place, so
the cache now maps the page index to the updated contents). -/
def writeToPage (st : State) (address dst : Nat) (src : Nat → Nat)
    (count : Nat) : State :=
  let r := get_page st address
  { r.1 with
    cache := cacheInsert r.1.cache (address >>> st.log_page_size)
      (storeBytes r.2 dst src count) }

/-- The `while (total < length)` loop of `DirectFile::write`, fuel-indexed.
Returns the final state, the list of bulk device writes issued (in order),
and the final `total`. -/
def writeLoop (src : Nat → Nat) (length offset : Nat) :
    State → Nat → Nat → State × List DevWrite × Nat
  | st, total, 0 => (st, [], total)
  | st, total, fuel + 1 =>
    if total < length then
      let count0 := min (length - total) st.buffer_size
      if page_size st ≤ count0 then
        -- align count down to a page multiple, stage src[total..] in the
        -- scratch buffer, pwrite it at offset + total
        let count := count0 - count0 % page_size st
        let addr := offset + total
        let dev1 := st.dev.pwrite (fun j => src (total + j)) count addr
        let b := addr >>> st.log_page_size
        let e := (addr + count) >>> st.log_page_size
        let st1 : State := { st with dev := dev1, cache := evictRange st.cache b e }
        let r := writeLoop src length offset st1 (total + count) fuel
        (r.1, ⟨addr, count⟩ :: r.2.1, r.2.2)
      else
        -- final unaligned tail
        let st1 := writeToPage st (offset + total) 0
          (fun j => src (total + j)) count0
        writeLoop src length offset st1 (total + count0) fuel
    else (st, [], total)

/-- `DirectFile::write(data, length, offset, buffer)`: unaligned head into the
cache, then the body loop.  Returns the new state and the bulk device writes
issued. -/
def write (st : State) (src : Nat → Nat) (length offset : Nat) :
    State × List DevWrite :=
  let m := offset % page_size st
  let head :=
    if m ≠ 0 then
      (writeToPage st offset m src (min (page_size st - m) length),
        min (page_size st - m) length)
    else (st, 0)
  let r := writeLoop src length offset head.1 head.2 length
  (r.1, r.2.1)

/-- Result of a `flush()` call: the state after it, the page writes it
performed (in cache order), and whether it returned normally (`ok = false`
models the `IOError` thrown on a short `pwrite`). -/
structure FlushResult where
  st : State
  writes : List DevWrite
  ok : Bool

/-- The loop of `flush()` over the cache entries in ascending key order.
`fail index` says whether the `pwrite` for that page returns a short count;
on failure the loop stops (an exception propagates). -/
def flushAux (ps : Nat) (fail : Nat → Bool) :
    Device → Cache → Device × List DevWrite × Bool
  | dev, [] => (dev, [], true)
  | dev, (i, p) :: rest =>
    if fail i then (dev, [], false)
    else
      let dev1 := dev.pwrite p ps (i * ps)
      let r := flushAux ps fail dev1 rest
      (r.1, ⟨i * ps, ps⟩ :: r.2.1, r.2.2)

/-- `DirectFile::flush()`: a no-op when the descriptor is closed; otherwise
write every cached page (full `page_size` bytes at `index * page_size`) in
map order.  On full success clear the cache and set `read_flag = true`; on a
short write the exception leaves the cache as it was (the C++ code has
already `free`d the buffers of the pages it wrote, but their map entries are
only removed by `cache.clear()`, which is never reached). -/
def flush (st : State) (fail : Nat → Bool) : FlushResult :=
  if st.fdOpen then
    let r := flushAux (page_size st) fail st.dev st.cache
    if r.2.2 then
      ⟨{ st with dev := r.1, cache := [], read_flag := true }, r.2.1, true⟩
    else
      ⟨{ st with dev := r.1 }, r.2.1, false⟩
  else ⟨st, [], true⟩

/-- Result of a `close()` call: `released` records whether the descriptor
was handed to `::close` (the flush-then-release sequence ran to its second
step); `ok = false` models the exception a failed flush propagates. -/
structure CloseResult where
  st : State
  writes : List DevWrite
  ok : Bool
  released : Bool

/-- `DirectFile::close()`: when the descriptor is open, flush (an exception
there propagates and leaves `fd` untouched), then release the descriptor and
mark it invalid (`fd = -1`).  The `::close` syscall is modelled on its
success path. -/
def close (st : State) (fail : Nat → Bool) : CloseResult :=
  if st.fdOpen then
    let f := flush st fail
    if f.ok then ⟨{ f.st with fdOpen := false }, f.writes, true, true⟩
    else ⟨f.st, f.writes, false, false⟩
  else ⟨st, [], true, false⟩

/-- One API call on the handle, for statements about the rest of a handle's
lifetime. -/
inductive Op where
  | doWrite (src : Nat → Nat) (length offset : Nat)
  | doFlush (fail : Nat → Bool)
  | doClose (fail : Nat → Bool)

/-- Apply one call to the state. -/
def applyOp (st : State) : Op → State
  | .doWrite src length offset => (write st src length offset).1
  | .doFlush fail => (flush st fail).st
  | .doClose fail => (close st fail).st

/-- Apply a sequence of calls to the state. -/
def applyOps : State → List Op → State
  | st, [] => st
  | st, op :: rest => applyOps (applyOp st op) rest

/-- The byte at intra-page offset `j` of cached page `i` (0 when the page is
not cached); used to state what the cache holds. -/
def pageAt (st : State) (i j : Nat) : Nat :=
  match cacheLookup st.cache i with
  | some p => p j
  | none => 0

/-- A tiny open handle over an empty file: `page_size = 4`, scratch buffer of
8 bytes, `read_flag = false` (fresh file, nothing to preserve). -/
def exA : State :=
  { read_flag := false, log_page_size := 2, buffer_size := 8, fdOpen := true,
    cache := [], dev := { bytes := fun _ => 0, size := 0 } }

/-- A tiny open handle with `read_flag = true` over a 3-byte file whose byte
at position `a` is `a + 10`: `page_size = 2`. -/
def exB : State :=
  { read_flag := true, log_page_size := 1, buffer_size := 4, fdOpen := true,
    cache := [], dev := { bytes := fun a => a + 10, size := 3 } }

/-- A tiny open handle whose cache holds pages 0 and 1 (constant bytes 1
resp. 2): `page_size = 4`. -/
def exC : State :=
  { read_flag := false, log_page_size := 2, buffer_size := 8, fdOpen := true,
    cache := [(0, fun _ => 1), (1, fun _ => 2)],
    dev := { bytes := fun _ => 0, size := 0 } }

/-- The handle of the spec's concrete scenario: defaults
`log_page_size = 12`, `buffer_size = 1 MiB`, freshly created empty file
(so `read_flag = false`). -/
def freshSt : State :=
  { read_flag := false, log_page_size := 12, buffer_size := 1024 * 1024,
    fdOpen := true, cache := [], dev := { bytes := fun _ => 0, size := 0 } }

/-! ## Basic lemmas about the cache and the state frames -/

theorem cacheLookup_insert (c : Cache) (k : Nat) (p : Nat → Nat) :
    cacheLookup (cacheInsert c k p) k = some p := by
  induction c with
  | nil => simp [cacheInsert, cacheLookup]
  | cons kv rest ih =>
    obtain ⟨k0, q⟩ := kv
    by_cases h1 : k < k0
    · simp [cacheInsert, h1, cacheLookup]
    · by_cases h2 : k = k0
      · subst h2
        simp [cacheInsert, h1, cacheLookup]
      · have h3 : k0 ≠ k := Ne.symm h2
        simp [cacheInsert, h1, h2, cacheLookup, h3, ih]

/-- `get_page` changes nothing but the cache. -/
theorem get_page_frame (st : State) (a : Nat) :
    (get_page st a).1.read_flag = st.read_flag ∧
    (get_page st a).1.log_page_size = st.log_page_size ∧
    (get_page st a).1.buffer_size = st.buffer_size ∧
    (get_page st a).1.fdOpen = st.fdOpen ∧
    (get_page st a).1.dev = st.dev := by
  cases h : cacheLookup st.cache (a >>> st.log_page_size) with
  | none => simp [get_page, h]
  | some p => simp [get_page, h]

/-- `writeToPage` changes nothing but the cache. -/
theorem writeToPage_frame (st : State) (a d : Nat) (s : Nat → Nat) (c : Nat) :
    (writeToPage st a d s c).read_flag = st.read_flag ∧
    (writeToPage st a d s c).log_page_size = st.log_page_size ∧
    (writeToPage st a d s c).buffer_size = st.buffer_size ∧
    (writeToPage st a d s c).fdOpen = st.fdOpen ∧
    (writeToPage st a d s c).dev = st.dev := by
  have h := get_page_frame st a
  unfold writeToPage
  exact ⟨h.1, h.2.1, h.2.2.1, h.2.2.2.1, h.2.2.2.2⟩

theorem page_size_writeToPage (st : State) (a d : Nat) (s : Nat → Nat)
    (c : Nat) : page_size (writeToPage st a d s c) = page_size st := by
  unfold page_size
  rw [(writeToPage_frame st a d s c).2.1]

/-! ## Arithmetic about rounding a count down to a page multiple -/

theorem round_down_mod (c p : Nat) : (c - c % p) % p = 0 := by
  rcases Nat.eq_zero_or_pos p with hp | hp
  · subst hp; simp
  · have h := Nat.div_add_mod c p
    have h2 : c - c % p = p * (c / p) := by omega
    rw [h2, Nat.mul_mod_right]

theorem round_down_ge (c p : Nat) (h : p ≤ c) : p ≤ c - c % p := by
  rcases Nat.eq_zero_or_pos p with hp | hp
  · subst hp; simp
  · have h1 := Nat.div_add_mod c p
    have h2 : 1 ≤ c / p := (Nat.one_le_div_iff hp).mpr h
    have h3 : p * 1 ≤ p * (c / p) := Nat.mul_le_mul_left p h2
    omega

theorem page_size_pos (st : State) : 0 < page_size st :=
  Nat.pos_pow_of_pos st.log_page_size (by omega)

/-! ## The body loop: size and alignment of the bulk writes it issues -/

/-- Every bulk write the body loop issues has a length that is at most the
scratch-buffer size, at most `length`, a positive multiple of the page
size. -/
theorem writeLoop_len_spec (src : Nat → Nat) (length offset : Nat) :
    ∀ (fuel : Nat) (st : State) (total : Nat) (w : DevWrite),
      w ∈ (writeLoop src length offset st total fuel).2.1 →
      w.len ≤ st.buffer_size ∧ w.len ≤ length ∧
        w.len % page_size st = 0 ∧ page_size st ≤ w.len := by
  intro fuel
  induction fuel with
  | zero => intro st total w hw; simp [writeLoop] at hw
  | succ n ih =>
    intro st total w hw
    simp only [writeLoop] at hw
    split at hw
    · split at hw
      · next h1 h2 =>
        simp only [List.mem_cons] at hw
        rcases hw with rfl | hw
        · have hb : min (length - total) st.buffer_size ≤ st.buffer_size :=
            Nat.min_le_right _ _
          have hl : min (length - total) st.buffer_size ≤ length :=
            le_trans (Nat.min_le_left _ _) (Nat.sub_le _ _)
          refine ⟨le_trans (Nat.sub_le _ _) hb, le_trans (Nat.sub_le _ _) hl,
            round_down_mod _ _, round_down_ge _ _ h2⟩
        · have h3 := ih _ _ w hw
          simpa [page_size] using h3
      · next h1 h2 =>
        have h3 := ih _ _ w hw
        have hf := writeToPage_frame st (offset + total) 0
          (fun j => src (total + j)) (min (length - total) st.buffer_size)
        rw [hf.2.2.1] at h3
        rwa [page_size, hf.2.1] at h3
    · simp at hw

/-- C1: in the body loop of `write(data, length, offset, buffer)` the chunk
for each iteration is `min(length - total, buffer_size)`, so every bulk
device write it issues is of at most `buffer_size` (and at most `length`)
bytes, and — because a chunk of at least one page is aligned down before the
`pwrite` — of a positive multiple of `page_size` bytes. -/
theorem write_bulk_chunk_min (st : State) (src : Nat → Nat) (length offset : Nat)
    (w : DevWrite) (hw : w ∈ (write st src length offset).2) :
    w.len ≤ st.buffer_size ∧ w.len ≤ length ∧
      w.len % page_size st = 0 ∧ page_size st ≤ w.len := by
  simp only [write] at hw
  split at hw
  · next hm =>
    have h3 := writeLoop_len_spec src length offset length _ _ w hw
    have hf := writeToPage_frame st offset (offset % page_size st) src
      (min (page_size st - offset % page_size st) length)
    rw [hf.2.2.1] at h3
    rwa [page_size, hf.2.1] at h3
  · exact writeLoop_len_spec src length offset length _ _ w hw

/-- Witness for C1: on the page-size-4 handle `exA`, `write` of 8 bytes at
offset 0 issues the single bulk write `⟨0, 8⟩`, whose length is within the
8-byte scratch buffer and a multiple of the page size. -/
theorem write_bulk_chunk_min_witness :
    (8 : Nat) ≤ exA.buffer_size ∧ (8 : Nat) ≤ 8 ∧
      8 % page_size exA = 0 ∧ page_size exA ≤ 8 :=
  write_bulk_chunk_min exA (fun _ => 7) 8 0 ⟨0, 8⟩ (by decide)

/-- Once the body loop starts at a page-aligned running address, it stays
page-aligned across iterations (bulk chunks are page multiples; a sub-page
chunk is final when the scratch buffer holds at least one page), so every
bulk write has page-aligned offset and length. -/
theorem writeLoop_aligned (src : Nat → Nat) (length offset : Nat) :
    ∀ (fuel : Nat) (st : State) (total : Nat),
      page_size st ≤ st.buffer_size →
      (offset + total) % page_size st = 0 →
      ∀ w ∈ (writeLoop src length offset st total fuel).2.1,
        w.off % page_size st = 0 ∧ w.len % page_size st = 0 := by
  intro fuel
  induction fuel with
  | zero => intro st total hbuf hal w hw; simp [writeLoop] at hw
  | succ n ih =>
    intro st total hbuf hal w hw
    simp only [writeLoop] at hw
    split at hw
    · split at hw
      · next h1 h2 =>
        simp only [List.mem_cons] at hw
        rcases hw with rfl | hw
        · exact ⟨hal, round_down_mod _ _⟩
        · have hal2 : (offset + (total +
              (min (length - total) st.buffer_size -
                min (length - total) st.buffer_size % page_size st)))
                % page_size st = 0 := by
            rw [← Nat.add_assoc]
            rw [Nat.add_mod, hal, round_down_mod, Nat.zero_add, Nat.zero_mod]
          have h3 := ih _ _ (by simpa [page_size] using hbuf)
            (by simpa [page_size] using hal2) w hw
          simpa [page_size] using h3
      · next h1 h2 =>
        -- sub-page chunk: with a page-sized scratch buffer this is the final
        -- tail, so the recursive call issues no bulk writes at all
        exfalso
        have hc : min (length - total) st.buffer_size = length - total := by
          rcases Nat.le_total (length - total) st.buffer_size with h | h
          · exact Nat.min_eq_left h
          · have : page_size st ≤ min (length - total) st.buffer_size := by
              rw [Nat.min_eq_right h]; exact hbuf
            omega
        rw [hc] at hw
        have hdone : ¬ (total + (length - total)) < length := by omega
        -- the recursive call starts with total = length and returns no writes
        cases n with
        | zero => simp [writeLoop] at hw
        | succ m =>
          simp only [writeLoop] at hw
          rw [if_neg hdone] at hw
          simp at hw
    · simp at hw

/-- C8: when the scratch buffer holds at least one page, the running address
`offset + total` is page-aligned whenever the body loop issues a bulk write
(the unaligned head consumes exactly `page_size - offset % page_size` bytes
when applicable, and body chunks are page multiples), so every bulk device
write of `write` has a page-aligned file offset and a page-aligned length. -/
theorem write_bulk_aligned (st : State) (src : Nat → Nat) (length offset : Nat)
    (hbuf : page_size st ≤ st.buffer_size)
    (w : DevWrite) (hw : w ∈ (write st src length offset).2) :
    w.off % page_size st = 0 ∧ w.len % page_size st = 0 := by
  simp only [write] at hw
  split at hw
  · next hm =>
    set st1 := writeToPage st offset (offset % page_size st) src
      (min (page_size st - offset % page_size st) length) with hst1
    have hf := writeToPage_frame st offset (offset % page_size st) src
      (min (page_size st - offset % page_size st) length)
    have hps : page_size st1 = page_size st := by
      rw [page_size, hf.2.1, page_size]
    by_cases hlt : length < page_size st - offset % page_size st
    · -- the whole request fits in the head page: total = length, the loop
      -- issues nothing
      rw [Nat.min_eq_right (Nat.le_of_lt hlt)] at hw
      cases length with
      | zero => simp [writeLoop] at hw
      | succ m =>
        simp only [writeLoop] at hw
        rw [if_neg (by omega)] at hw
        simp at hw
    · rw [Nat.min_eq_left (by omega)] at hw
      have hmod : 0 < offset % page_size st := Nat.pos_of_ne_zero hm
      have hlt2 : offset % page_size st < page_size st :=
        Nat.mod_lt offset (page_size_pos st)
      have hal : (offset + (page_size st - offset % page_size st))
          % page_size st = 0 := by
        have h4 := Nat.div_add_mod offset (page_size st)
        have h5 : offset + (page_size st - offset % page_size st)
            = page_size st * (offset / page_size st) + page_size st := by omega
        rw [h5, Nat.add_mod, Nat.mul_mod_right, Nat.mod_self]
        simp
      have h3 := writeLoop_aligned src length offset length st1 _
        (by rw [hps, hf.2.2.1]; exact hbuf) (by rw [hps]; exact hal) w hw
      rwa [hps] at h3
  · next hm =>
    have hm0 : offset % page_size st = 0 := by
      by_contra h
      exact hm h
    exact writeLoop_aligned src length offset length st 0 hbuf
      (by simpa using hm0) w hw

/-- Witness for C8: on `exA` (page size 4, buffer 8), writing 11 bytes at
offset 2 issues the bulk write `⟨4, 8⟩`, aligned in offset and length. -/
theorem write_bulk_aligned_witness :
    page_size exA ≤ exA.buffer_size ∧
      ((4 : Nat) % page_size exA = 0 ∧ (8 : Nat) % page_size exA = 0) :=
  ⟨by decide,
    write_bulk_aligned exA (fun j => j) 11 2 (by decide) ⟨4, 8⟩ (by decide)⟩

/-! ## Populating a page on a cache miss -/

/-- C2: populating a page with `read_flag` (preserveOnReadMiss) true never
fails — `get_page` handles a short or empty `pread` by `memset`, not by
throwing — and every byte of the page beyond what the device actually holds
(in particular every byte of a fully missing page past end-of-file) is
zero-filled; the fully populated page is what the call returns and caches. -/
theorem get_page_zero_fill (st : State) (address : Nat)
    (hread : st.read_flag = true)
    (hmiss : cacheLookup st.cache (address >>> st.log_page_size) = none) :
    (∀ j, (get_page st address).2 j =
      if (address >>> st.log_page_size) * page_size st + j < st.dev.size then
        st.dev.bytes ((address >>> st.log_page_size) * page_size st + j)
      else 0) ∧
    cacheLookup (get_page st address).1.cache (address >>> st.log_page_size)
      = some (get_page st address).2 := by
  constructor
  · intro j
    simp [get_page, hmiss, mkPage, hread]
  · simp [get_page, hmiss, cacheLookup_insert]

/-- Witness for C2: on `exB` (page size 2, 3-byte file with byte `a` equal
to `a + 10`), a miss on page 1 reads existing byte 2 and zero-fills byte 3,
which is past end-of-file. -/
theorem get_page_zero_fill_witness :
    (get_page exB 2).2 0 = 12 ∧ (get_page exB 2).2 1 = 0 := by
  have h := get_page_zero_fill exB 2 rfl rfl
  constructor
  · rw [h.1 0]; decide
  · rw [h.1 1]; decide

/-! ## read_flag: set by a successful flush, never cleared again -/

theorem writeLoop_read_flag (src : Nat → Nat) (length offset : Nat) :
    ∀ (fuel : Nat) (st : State) (total : Nat),
      (writeLoop src length offset st total fuel).1.read_flag
        = st.read_flag := by
  intro fuel
  induction fuel with
  | zero => intro st total; simp [writeLoop]
  | succ n ih =>
    intro st total
    simp only [writeLoop]
    split
    · split
      · next h1 h2 => simp [ih]
      · next h1 h2 =>
        rw [ih]
        exact (writeToPage_frame st _ _ _ _).1
    · rfl

theorem write_read_flag (st : State) (src : Nat → Nat) (length offset : Nat) :
    (write st src length offset).1.read_flag = st.read_flag := by
  simp only [write]
  split
  · rw [writeLoop_read_flag]
    exact (writeToPage_frame st _ _ _ _).1
  · rw [writeLoop_read_flag]

theorem flush_read_flag (st : State) (fail : Nat → Bool)
    (h : st.read_flag = true) : (flush st fail).st.read_flag = true := by
  simp only [flush]
  split
  · split <;> simp [h]
  · simp [h]

theorem close_read_flag (st : State) (fail : Nat → Bool)
    (h : st.read_flag = true) : (close st fail).st.read_flag = true := by
  simp only [close]
  split
  · split
    · simp [flush_read_flag st fail h]
    · simp [flush_read_flag st fail h]
  · simp [h]

theorem applyOp_read_flag (st : State) (op : Op) (h : st.read_flag = true) :
    (applyOp st op).read_flag = true := by
  cases op with
  | doWrite src length offset =>
    rw [applyOp, write_read_flag]; exact h
  | doFlush fail => exact flush_read_flag st fail h
  | doClose fail => exact close_read_flag st fail h

theorem applyOps_read_flag :
    ∀ (ops : List Op) (st : State), st.read_flag = true →
      (applyOps st ops).read_flag = true := by
  intro ops
  induction ops with
  | nil => intro st h; exact h
  | cons op rest ih => intro st h; exact ih _ (applyOp_read_flag st op h)

/-- C3: after a `flush()` of an open handle that completes without error the
page cache is empty and `read_flag` (preserveOnReadMiss) is true, and it
stays true across every later `write`, `flush` or `close` on the handle. -/
theorem flush_success_cache_empty_read_flag (st : State) (fail : Nat → Bool)
    (hopen : st.fdOpen = true) (hok : (flush st fail).ok = true) :
    (flush st fail).st.cache = [] ∧ (flush st fail).st.read_flag = true ∧
      ∀ ops : List Op, (applyOps (flush st fail).st ops).read_flag = true := by
  have hc : (flush st fail).st.cache = []
      ∧ (flush st fail).st.read_flag = true := by
    simp only [flush, hopen, if_true] at hok ⊢
    by_cases hr : (flushAux (page_size st) fail st.dev st.cache).2.2 = true
    · rw [if_pos hr]
      simp
    · rw [if_neg hr] at hok
      simp at hok
  exact ⟨hc.1, hc.2, fun ops => applyOps_read_flag ops _ hc.2⟩

/-- Witness for C3: flushing `exC` (two cached pages) with no device failure
succeeds; the cache is then empty and `read_flag` is still true after a
further write, flush and close. -/
theorem flush_success_cache_empty_read_flag_witness :
    (flush exC (fun _ => false)).st.cache = [] ∧
      (applyOps (flush exC (fun _ => false)).st
        [Op.doWrite (fun _ => 3) 5 2, Op.doFlush (fun _ => false),
          Op.doClose (fun _ => false)]).read_flag = true := by
  have h := flush_success_cache_empty_read_flag exC (fun _ => false) rfl
    (by decide)
  exact ⟨h.1, h.2.2 _⟩

/-! ## Idempotence of flush and close -/

/-- C7: flush is idempotent — after a successful `flush()` of an open handle,
a second `flush()` with no intervening write performs zero device writes and
leaves the handle state (empty cache included) entirely unchanged. -/
theorem flush_idempotent (st : State) (f1 f2 : Nat → Bool)
    (hopen : st.fdOpen = true) (hok : (flush st f1).ok = true) :
    (flush (flush st f1).st f2).writes = [] ∧
      (flush (flush st f1).st f2).st = (flush st f1).st ∧
      (flush st f1).st.cache = [] := by
  simp only [flush, hopen, if_true] at hok ⊢
  by_cases hr : (flushAux (page_size st) f1 st.dev st.cache).2.2 = true
  · rw [if_pos hr]
    simp [flush, flushAux, hopen, page_size]
  · rw [if_neg hr] at hok
    simp at hok

/-- Witness for C7: a successful flush of `exC` followed by a second flush:
the second performs no writes and the cache stays empty. -/
theorem flush_idempotent_witness :
    (flush (flush exC (fun _ => false)).st (fun _ => false)).writes = [] ∧
      (flush (flush exC (fun _ => false)).st (fun _ => false)).st
        = (flush exC (fun _ => false)).st ∧
      (flush exC (fun _ => false)).st.cache = [] :=
  flush_idempotent exC (fun _ => false) (fun _ => false) rfl (by decide)

/-- C10: close is idempotent — after a successful `close()` the descriptor
is marked invalid, and every later `close()` or `flush()` on the handle is a
no-op performing no page write and no descriptor release, so the
flush-then-release sequence runs at most once per handle. -/
theorem close_idempotent (st : State) (f1 : Nat → Bool)
    (hok : (close st f1).ok = true) :
    (close st f1).st.fdOpen = false ∧
      (∀ f2, close (close st f1).st f2
        = ⟨(close st f1).st, [], true, false⟩) ∧
      (∀ f2, flush (close st f1).st f2 = ⟨(close st f1).st, [], true⟩) := by
  have hfd : (close st f1).st.fdOpen = false := by
    simp only [close] at hok ⊢
    by_cases h1 : st.fdOpen = true
    · simp only [h1, if_true] at hok ⊢
      by_cases h2 : (flush st f1).ok = true
      · simp [h2]
      · simp [h2] at hok
    · simp only [if_neg h1] at hok ⊢
      simpa using h1
  refine ⟨hfd, ?_, ?_⟩
  · intro f2
    generalize hx : (close st f1).st = st1 at hfd
    simp [close, hfd]
  · intro f2
    generalize hx : (close st f1).st = st1 at hfd
    simp [flush, hfd]

/-- Witness for C10: closing `exC` succeeds; afterwards the descriptor is
marked invalid. -/
theorem close_idempotent_witness :
    (close exC (fun _ => false)).st.fdOpen = false := by
  have h := close_idempotent exC (fun _ => false) (by decide)
  exact h.1

/-! ## What a flush failure leaves behind -/

/-- C4 evaluated at the failing input: flushing `exC` (cached pages 0 and 1,
page size 4) with the device write for page 1 failing stops flush right
after the successful 4-byte write of page 0, as the claim says — but the
already-written page 0 is still in the cache (its buffer was freed, yet only
`cache.clear()`, never reached, removes entries), so the caller-driven retry
writes page 0 to the device a second time instead of only the remaining
page 1. -/
theorem flush_retry_duplicates_write :
    (flush exC (fun i => decide (i = 1))).ok = false ∧
      (flush exC (fun i => decide (i = 1))).writes = [⟨0, 4⟩] ∧
      (flush exC (fun i => decide (i = 1))).st.cache.map Prod.fst = [0, 1] ∧
      (flush (flush exC (fun i => decide (i = 1))).st
        (fun _ => false)).writes = [⟨0, 4⟩, ⟨4, 4⟩] := by
  decide

/-! ## Zero-length writes -/

theorem storeBytes_zero (p : Nat → Nat) (d : Nat) (s : Nat → Nat) (j : Nat) :
    storeBytes p d s 0 j = p j := by
  unfold storeBytes
  rw [if_neg (by omega)]

/-- C9: a `write` of length 0 at an unaligned offset still takes the
unaligned-head branch with `count = 0`: on an open handle with an empty
cache it performs no device write, leaves the device untouched, and creates
a fully populated cached page for that offset whose bytes are exactly the
`get_page` population `mkPage` (read from the device or zero-filled — no
caller byte is copied), and a later flush writes that page's full
`page_size` bytes at its aligned offset; at a page-aligned offset a
zero-length write changes nothing at all. -/
theorem write_length_zero (st : State) (src : Nat → Nat) (offset : Nat) :
    (offset % page_size st ≠ 0 → st.cache = [] → st.fdOpen = true →
      ((write st src 0 offset).2 = [] ∧
        (write st src 0 offset).1.dev = st.dev ∧
        (write st src 0 offset).1.cache.map Prod.fst
          = [offset >>> st.log_page_size] ∧
        (∀ j, pageAt (write st src 0 offset).1 (offset >>> st.log_page_size) j
          = mkPage st (offset >>> st.log_page_size) j) ∧
        (flush (write st src 0 offset).1 (fun _ => false)).writes
          = [⟨(offset >>> st.log_page_size) * page_size st, page_size st⟩]))
    ∧ (offset % page_size st = 0 → write st src 0 offset = (st, [])) := by
  constructor
  · intro hm hcache hfd
    have hw : write st src 0 offset
        = (writeToPage st offset (offset % page_size st) src 0, []) := by
      simp [write, hm, writeLoop]
    have hwp : writeToPage st offset (offset % page_size st) src 0
        = { st with cache := [(offset >>> st.log_page_size,
            storeBytes (mkPage st (offset >>> st.log_page_size))
              (offset % page_size st) src 0)] } := by
      simp [writeToPage, get_page, hcache, cacheLookup, cacheInsert]
    refine ⟨by rw [hw], by rw [hw, hwp], by rw [hw, hwp]; simp, ?_, ?_⟩
    · intro j
      rw [hw, hwp]
      simp [pageAt, cacheLookup, storeBytes_zero]
    · rw [hw, hwp]
      simp [flush, hfd, flushAux, page_size]
  · intro hm
    simp [write, hm, writeLoop]

/-- Witness for C9: a zero-length write at unaligned offset 3 on `exA`
issues no device write and caches exactly page 0. -/
theorem write_length_zero_witness :
    (write exA (fun _ => 9) 0 3).2 = [] ∧
      (write exA (fun _ => 9) 0 3).1.cache.map Prod.fst = [0] := by
  have h := write_length_zero exA (fun _ => 9) 3
  exact ⟨(h.1 (by decide) rfl rfl).1, (h.1 (by decide) rfl rfl).2.2.1⟩

/-! ## The spec's concrete 4100-offset scenario -/

/-- Reading one byte after a `pwrite`: inside the written range the new
bytes, elsewhere the old file content with zero extension (the hole a write
past end-of-file leaves also reads as zero). -/
theorem readFile_pwrite (dev : Device) (s : Nat → Nat) (count off a : Nat) :
    Device.readFile (dev.pwrite s count off) a =
      if off ≤ a ∧ a < off + count then s (a - off)
      else if a < dev.size then dev.bytes a else 0 := by
  unfold Device.readFile Device.pwrite
  simp only
  split_ifs <;> first | rfl | omega

/-- C5: on `freshSt` (pageSize 4096, freshly created empty file),
`write(data, 64, 4100)` has `mod = 4` and head count 64, takes only the
unaligned-head branch (no bulk device write); the cache then holds exactly
page index 1, whose bytes `[4, 68)` are the data and all other bytes zero;
`flush()` performs exactly one device write, of 4096 bytes at offset 4096;
and reading bytes `[4100, 4164)` of the resulting file yields the data
(and zero beyond them). -/
theorem write_4100_scenario (src : Nat → Nat) :
    4100 % page_size freshSt = 4 ∧
    min (page_size freshSt - 4) 64 = 64 ∧
    (write freshSt src 64 4100).2 = [] ∧
    (write freshSt src 64 4100).1.cache.map Prod.fst = [1] ∧
    (∀ j, pageAt (write freshSt src 64 4100).1 1 j
      = if 4 ≤ j ∧ j < 68 then src (j - 4) else 0) ∧
    (flush (write freshSt src 64 4100).1 (fun _ => false)).writes
      = [⟨4096, 4096⟩] ∧
    (∀ j, Device.readFile
        (flush (write freshSt src 64 4100).1 (fun _ => false)).st.dev
        (4100 + j) = if j < 64 then src j else 0) := by
  have hw : write freshSt src 64 4100
      = ({ freshSt with
            cache := [(1, storeBytes (mkPage freshSt 1) 4 src 64)] }, []) :=
    rfl
  have hdev : (flush (write freshSt src 64 4100).1 (fun _ => false)).st.dev
      = Device.pwrite { bytes := fun _ => 0, size := 0 }
          (storeBytes (mkPage freshSt 1) 4 src 64) 4096 4096 := by
    rw [hw]
    rfl
  refine ⟨by decide, by decide, by rw [hw], by rw [hw]; rfl, ?_, ?_, ?_⟩
  · intro j
    rw [hw]
    show storeBytes (mkPage freshSt 1) 4 src 64 j
      = if 4 ≤ j ∧ j < 68 then src (j - 4) else 0
    unfold storeBytes mkPage
    norm_num [freshSt]
  · rw [hw]
    rfl
  · intro j
    rw [hdev, readFile_pwrite]
    simp only [storeBytes]
    by_cases hj : j < 64
    · rw [if_pos (by omega : 4096 ≤ 4100 + j ∧ 4100 + j < 4096 + 4096),
        if_pos (by omega : 4 ≤ 4100 + j - 4096 ∧ 4100 + j - 4096 < 4 + 64),
        if_pos hj]
      have harg : 4100 + j - 4096 - 4 = j := by omega
      rw [harg]
    · rw [if_neg hj]
      by_cases hj2 : 4100 + j < 4096 + 4096
      · rw [if_pos (by omega : 4096 ≤ 4100 + j ∧ 4100 + j < 4096 + 4096),
          if_neg (by omega : ¬(4 ≤ 4100 + j - 4096 ∧ 4100 + j - 4096 < 4 + 64))]
        simp [mkPage, freshSt]
      · rw [if_neg (by omega : ¬(4096 ≤ 4100 + j ∧ 4100 + j < 4096 + 4096))]
        simp

/-! ## Eviction by a covering bulk write -/

/-- Once `total` has reached `length`, the body loop stops whatever the
fuel. -/
theorem writeLoop_done (src : Nat → Nat) (length offset : Nat) (st : State)
    (total fuel : Nat) (h : length ≤ total) :
    writeLoop src length offset st total fuel = (st, [], total) := by
  cases fuel with
  | zero => rfl
  | succ n => simp [writeLoop, Nat.not_lt.mpr h]

theorem shiftRight_page (s : State) (x : Nat) :
    x >>> s.log_page_size = x / page_size s := by
  rw [Nat.shiftRight_eq_div_pow]
  rfl

theorem mul_add_div_page (k r ps : Nat) (hps : 0 < ps) (hr : r < ps) :
    (k * ps + r) / ps = k := by
  rw [Nat.add_comm, Nat.mul_comm, Nat.add_mul_div_left _ _ hps,
    Nat.div_eq_of_lt hr, Nat.zero_add]

/-- A body-loop run whose whole task is exactly one page: one bulk write of
`page_size` bytes at `offset`, evicting the covered page range, then done. -/
theorem writeLoop_single_page (src : Nat → Nat) (offset : Nat) (st : State)
    (fuel : Nat) (hfuel : 0 < fuel) (hbuf : page_size st ≤ st.buffer_size) :
    writeLoop src (page_size st) offset st 0 fuel
      = ({ st with
            dev := st.dev.pwrite (fun j => src (0 + j)) (page_size st)
              (offset + 0),
            cache := evictRange st.cache ((offset + 0) >>> st.log_page_size)
              ((offset + 0 + page_size st) >>> st.log_page_size) },
          [⟨offset + 0, page_size st⟩], 0 + page_size st) := by
  have hps := page_size_pos st
  obtain ⟨g, rfl⟩ : ∃ g, fuel = g + 1 := ⟨fuel - 1, by omega⟩
  simp only [writeLoop]
  rw [if_pos (by omega : 0 < page_size st)]
  rw [Nat.sub_zero, Nat.min_eq_left hbuf]
  rw [if_pos (Nat.le_refl _)]
  rw [Nat.mod_self, Nat.sub_zero]
  rw [writeLoop_done _ _ _ _ _ _ (by omega : page_size st ≤ 0 + page_size st)]

/-- A `write` of exactly one full page at the aligned offset
`P * page_size`: no head, one bulk device write, and eviction of exactly the
covered page index range `[P, P+1)`. -/
theorem write_full_page (s : State) (src : Nat → Nat) (P ps : Nat)
    (hp : ps = page_size s) (hbuf : page_size s ≤ s.buffer_size) :
    write s src ps (P * ps)
      = ({ s with
            dev := s.dev.pwrite (fun j => src (0 + j)) ps (P * ps + 0),
            cache := evictRange s.cache P (P + 1) },
          [⟨P * ps + 0, ps⟩]) := by
  subst hp
  have hps := page_size_pos s
  have hm : (P * page_size s) % page_size s = 0 := Nat.mul_mod_left _ _
  have hb : (P * page_size s + 0) >>> s.log_page_size = P := by
    rw [shiftRight_page]
    exact mul_add_div_page P 0 (page_size s) hps hps
  have he : (P * page_size s + 0 + page_size s) >>> s.log_page_size
      = P + 1 := by
    rw [shiftRight_page]
    rw [show P * page_size s + 0 + page_size s = (P + 1) * page_size s + 0
      from by ring]
    exact mul_add_div_page (P + 1) 0 (page_size s) hps hps
  simp only [write, hm]
  rw [if_neg (by simp : ¬((0 : Nat) ≠ 0))]
  rw [writeLoop_single_page src (P * page_size s) s (page_size s) hps hbuf]
  rw [hb, he]

/-- Flushing a handle whose cache is empty leaves the device untouched. -/
theorem flush_empty_cache_dev (s : State) (f : Nat → Bool)
    (h : s.cache = []) : (flush s f).st.dev = s.dev := by
  cases hfd : s.fdOpen <;> simp [flush, hfd, h, flushAux]

/-- One byte inside the range of a `pwrite`. -/
theorem pwrite_bytes_inside (dev : Device) (s : Nat → Nat) (count off j : Nat)
    (h : j < count) : (dev.pwrite s count off).bytes (off + j) = s j := by
  unfold Device.pwrite
  simp only
  rw [if_pos ⟨Nat.le_add_right _ _, by omega⟩, Nat.add_sub_cancel_left]

/-- C6: for every page P, a sub-page write of `c` bytes at offset
`P * pageSize + a` (with `0 < a`, `0 < c`, `a + c ≤ pageSize`, starting from
an empty cache), followed by an aligned bulk write fully covering page P,
followed by `flush`, leaves the device holding the bulk write's bytes on all
of page P — the bulk write evicted the cached page P, so the earlier
sub-page write's bytes are not reproduced. -/
theorem bulk_write_evicts_page (st : State) (P a c : Nat)
    (src1 src2 : Nat → Nat) (fail : Nat → Bool)
    (hcache : st.cache = []) (ha : 0 < a) (hc : 0 < c)
    (hac : a + c ≤ page_size st) (hbuf : page_size st ≤ st.buffer_size) :
    (write (write st src1 c (P * page_size st + a)).1 src2 (page_size st)
        (P * page_size st)).1.cache = [] ∧
    ∀ j, j < page_size st →
      (flush (write (write st src1 c (P * page_size st + a)).1 src2
          (page_size st) (P * page_size st)).1 fail).st.dev.bytes
        (P * page_size st + j) = src2 j := by
  have hps : 0 < page_size st := page_size_pos st
  have ha_lt : a < page_size st := by omega
  have hma : (P * page_size st + a) % page_size st = a := by
    rw [Nat.add_comm, Nat.add_mul_mod_self_right]
    exact Nat.mod_eq_of_lt ha_lt
  have hidx : (P * page_size st + a) >>> st.log_page_size = P := by
    rw [shiftRight_page]
    exact mul_add_div_page P a (page_size st) hps ha_lt
  -- the first, sub-page write lands entirely in the head branch and caches
  -- exactly page P
  have h1 : (write st src1 c (P * page_size st + a)).1
      = { st with cache := [(P, storeBytes (mkPage st P) a src1 c)] } := by
    simp only [write, hma]
    rw [if_pos (by omega : a ≠ 0),
      Nat.min_eq_right (by omega : c ≤ page_size st - a),
      writeLoop_done _ _ _ _ _ _ (le_refl c)]
    simp only [writeToPage, get_page, hidx, hcache, cacheLookup]
    simp [cacheInsert]
  rw [h1]
  -- the second write covers page P in one bulk transfer and evicts it
  rw [write_full_page
    { st with cache := [(P, storeBytes (mkPage st P) a src1 c)] }
    src2 P (page_size st) rfl hbuf]
  have hev : evictRange [(P, storeBytes (mkPage st P) a src1 c)] P (P + 1)
      = [] := by
    simp [evictRange]
  constructor
  · show evictRange [(P, storeBytes (mkPage st P) a src1 c)] P (P + 1) = []
    exact hev
  · intro j hj
    rw [flush_empty_cache_dev _ fail hev]
    show (st.dev.pwrite (fun j => src2 (0 + j)) (page_size st)
      (P * page_size st + 0)).bytes (P * page_size st + j) = src2 j
    rw [Nat.add_zero]
    rw [pwrite_bytes_inside st.dev _ (page_size st) (P * page_size st) j hj]
    rw [Nat.zero_add]

/-- Witness for C6: on `exA` (page size 4, empty cache), a 2-byte sub-page
write at offset 5 (page 1) then a full bulk write of page 1 then flush: the
cache is empty after the bulk write and byte 5 of page 1 on the device holds
the bulk write's value, not the sub-page one. -/
theorem bulk_write_evicts_page_witness :
    (write (write exA (fun _ => 5) 2 (1 * page_size exA + 1)).1
        (fun j => j + 1) (page_size exA) (1 * page_size exA)).1.cache = [] ∧
      (flush (write (write exA (fun _ => 5) 2 (1 * page_size exA + 1)).1
          (fun j => j + 1) (page_size exA) (1 * page_size exA)).1
        (fun _ => false)).st.dev.bytes (1 * page_size exA + 1) = 2 := by
  have h := bulk_write_evicts_page exA 1 1 2 (fun _ => 5) (fun j => j + 1)
    (fun _ => false) rfl (by decide) (by decide) (by decide) (by decide)
  exact ⟨h.1, h.2 1 (by decide)⟩
